import Mathlib

/-!
Verification of the Feishu task plugin
(`tools/feishu_task`): a shallow embedding, in Lean, of
`feishu_task_api_v2_utils.py` and of the tool layer in
`tools/feishu_task/tools/`, together with theorems settling the
specification's claims about it.

Conventions of the embedding:
* Python values that flow through `normalize_list`, `json.loads` and the
  request payloads are modelled by the inductive family `PyVal`
  (`None`, `bool`, `int`, `float`, `str`, `list`, `tuple`, `set`, `dict`,
  plus an `other` constructor standing for any object of another type,
  carrying its `str()` rendering and its truthiness).
* `str.strip()` is modelled over the ASCII whitespace characters
  (space, tab, newline, carriage return, vertical tab, form feed); the
  further Unicode whitespace stripped by CPython plays no role in any
  claim.
* Fallible Python code (raised exceptions) is modelled with
  `Except String`; the carried message keeps the shape of the Python
  message where convenient but quotation marks inside messages are not
  reproduced.
* HTTP is modelled by an environment `Env : HttpRequest → HttpResult`
  mapping each issued request to what `httpx.request` + `response.json()`
  produced for it; every client operation returns the list of requests it
  issued (its trace) next to its result.
* Resource exhaustion of the CPython runtime (e.g. the recursion limit of
  the `json` scanner on pathologically nested input) is outside the model.
-/

/-- The ASCII whitespace characters removed by Python `str.strip()`
(CPython additionally strips some non-ASCII Unicode whitespace, which no
claim exercises). -/
def isPySpace (c : Char) : Bool :=
  c = ' ' || c = '\t' || c = '\n' || c = '\r' || c = '\x0b' || c = '\x0c'

/-- `str.strip()` on the character list: drop whitespace from the front,
then from the back. -/
def stripChars (cs : List Char) : List Char :=
  ((cs.dropWhile isPySpace).reverse.dropWhile isPySpace).reverse

/-- Python `str.strip()` (no arguments), over the modelled whitespace set. -/
def stripStr (s : String) : String :=
  ⟨stripChars s.data⟩

mutual
/-- Model of the Python values reaching `normalize_list` and the JSON
payloads/bodies of the HTTP layer. `other` stands for a value of any type
not singled out by the code, carrying its `str()` rendering and its
truthiness. -/
inductive PyVal where
  | none
  | bool (b : Bool)
  | int (n : Int)
  | float (lex : String)
  | str (s : String)
  | list (xs : PyList)
  | tuple (xs : PyList)
  | set (xs : PyList)
  | dict (kvs : PyDict)
  | other (reprStr : String) (truthy : Bool)

/-- A Python list/tuple/set body (a mutual list type so that recursion over
nested values stays structural). -/
inductive PyList where
  | nil
  | cons (hd : PyVal) (tl : PyList)

/-- A Python dict with string keys, in insertion order. -/
inductive PyDict where
  | nil
  | cons (key : String) (val : PyVal) (tl : PyDict)
end

def PyList.toList : PyList → List PyVal
  | .nil => []
  | .cons h t => h :: PyList.toList t

def PyList.ofList : List PyVal → PyList
  | [] => .nil
  | h :: t => .cons h (PyList.ofList t)

def PyList.isNil : PyList → Bool
  | .nil => true
  | .cons _ _ => false

def PyDict.isNil : PyDict → Bool
  | .nil => true
  | .cons _ _ _ => false

/-- Python `dict.get`: on duplicate keys the later binding wins (dict
construction overwrites earlier keys). -/
def PyDict.get : PyDict → String → Option PyVal
  | .nil, _ => Option.none
  | .cons key v tl, k =>
    match PyDict.get tl k with
    | some r => some r
    | Option.none => if key = k then some v else Option.none

/-- `dict.get` lifted to a value: on a non-dict the attribute access would
raise; callers of this function treat that case separately. -/
def pyGet (v : PyVal) (k : String) : Option PyVal :=
  match v with
  | .dict d => PyDict.get d k
  | _ => Option.none

/-- Whether a float literal (as produced by the JSON number scanner)
denotes the value zero: sign and exponent ignored, every mantissa digit 0. -/
def floatLexIsZero (lex : String) : Bool :=
  let mantissa := lex.data.takeWhile (fun c => c ≠ 'e' && c ≠ 'E')
  mantissa.all (fun c => !c.isDigit || c = '0')

/-- Python truthiness (`bool(x)`) for the modelled values. -/
def pyTruthy : PyVal → Bool
  | .none => false
  | .bool b => b
  | .int n => n != 0
  | .float lex => !floatLexIsZero lex
  | .str s => !s.isEmpty
  | .list xs => !xs.isNil
  | .tuple xs => !xs.isNil
  | .set xs => !xs.isNil
  | .dict kvs => !kvs.isNil
  | .other _ t => t

def boolStr (b : Bool) : String :=
  if b then "True" else "False"

/-- Two lowercase hex digits of a byte, for `repr`'s escapes. -/
def hexByte (n : Nat) : String :=
  let dig (k : Nat) : Char := if k < 10 then Char.ofNat (48 + k) else Char.ofNat (87 + k)
  ⟨[dig (n / 16 % 16), dig (n % 16)]⟩

/-- One character of a Python string `repr`, escaped as CPython does for
the common (ASCII) cases. -/
def pyCharEscape (quote : Char) (c : Char) : String :=
  if c = '\\' then "\\\\"
  else if c = quote then "\\" ++ String.singleton quote
  else if c = '\n' then "\\n"
  else if c = '\r' then "\\r"
  else if c = '\t' then "\\t"
  else if c.toNat < 32 || c.toNat = 127 then "\\x" ++ hexByte c.toNat
  else String.singleton c

/-- Python `repr` of a string: single-quoted, double-quoted only when the
text contains a single quote but no double quote. -/
def pyStrRepr (s : String) : String :=
  let q : Char := if s.data.contains '\'' && !(s.data.contains '"') then '"' else '\''
  String.singleton q ++ String.join (s.data.map (pyCharEscape q)) ++ String.singleton q

mutual
/-- Python `repr(x)` for the modelled values (exact for the scalar and
string cases the claims exercise; for floats the stored literal stands for
CPython's shortest-repr rendering). -/
def pyRepr : PyVal → String
  | .none => "None"
  | .bool b => boolStr b
  | .int n => toString n
  | .float lex => lex
  | .str s => pyStrRepr s
  | .list xs => "[" ++ pyReprItems xs ++ "]"
  | .tuple (.cons h .nil) => "(" ++ pyRepr h ++ ",)"
  | .tuple xs => "(" ++ pyReprItems xs ++ ")"
  | .set .nil => "set()"
  | .set xs => "\x7b" ++ pyReprItems xs ++ "\x7d"
  | .dict kvs => "\x7b" ++ pyReprPairs kvs ++ "\x7d"
  | .other r _ => r

def pyReprItems : PyList → String
  | .nil => ""
  | .cons h .nil => pyRepr h
  | .cons h (.cons h2 t) => pyRepr h ++ ", " ++ pyReprItems (.cons h2 t)

def pyReprPairs : PyDict → String
  | .nil => ""
  | .cons k v .nil => pyStrRepr k ++ ": " ++ pyRepr v
  | .cons k v (.cons k2 v2 t) =>
    pyStrRepr k ++ ": " ++ pyRepr v ++ ", " ++ pyReprPairs (.cons k2 v2 t)
end

/-- Python `str(x)`: the string itself for a `str`, otherwise `repr`
(which is what `str` produces on the remaining modelled types, floats
represented by their stored literal). -/
def pyStr (v : PyVal) : String :=
  match v with
  | .str s => s
  | _ => pyRepr v

/-! ### A model of `json.loads`

A fuel-indexed recursive-descent parser for the JSON accepted by
`json.loads` in its default configuration (strict strings, `NaN` /
`Infinity` / `-Infinity` accepted, no leading zeros in numbers), producing
the Python value the CPython scanner would build.  `\uXXXX` escapes decode
to the code point (surrogate-pair recombination is not modelled; no claim
exercises it).  A parse failure stands for `json.JSONDecodeError`. -/

/-- JSON inter-token whitespace. -/
def isJsonWs (c : Char) : Bool :=
  c = ' ' || c = '\t' || c = '\n' || c = '\r'

def skipWs (cs : List Char) : List Char :=
  cs.dropWhile isJsonWs

def hexVal (c : Char) : Option Nat :=
  if '0' ≤ c ∧ c ≤ '9' then some (c.toNat - 48)
  else if 'a' ≤ c ∧ c ≤ 'f' then some (c.toNat - 87)
  else if 'A' ≤ c ∧ c ≤ 'F' then some (c.toNat - 55)
  else Option.none

def digitsToNat (ds : List Char) : Nat :=
  ds.foldl (fun a c => a * 10 + (c.toNat - 48)) 0

/-- The characters of a JSON string literal, after the opening quote. -/
def parseJStringChars : Nat → List Char → Option (List Char × List Char)
  | 0, _ => Option.none
  | _, [] => Option.none
  | fuel + 1, c :: rest =>
    if c = '"' then some ([], rest)
    else if c = '\\' then
      match rest with
      | [] => Option.none
      | e :: rest2 =>
        let cont := fun (d : Char) (rem : List Char) =>
          (parseJStringChars fuel rem).map (fun p => (d :: p.1, p.2))
        if e = '"' then cont '"' rest2
        else if e = '\\' then cont '\\' rest2
        else if e = '/' then cont '/' rest2
        else if e = 'b' then cont '\x08' rest2
        else if e = 'f' then cont '\x0c' rest2
        else if e = 'n' then cont '\n' rest2
        else if e = 'r' then cont '\r' rest2
        else if e = 't' then cont '\t' rest2
        else if e = 'u' then
          match rest2 with
          | h1 :: h2 :: h3 :: h4 :: rest3 =>
            match hexVal h1, hexVal h2, hexVal h3, hexVal h4 with
            | some a, some b, some c2, some d =>
              let code := ((a * 16 + b) * 16 + c2) * 16 + d
              cont (Char.ofNat code) rest3
            | _, _, _, _ => Option.none
          | _ => Option.none
        else Option.none
    else if c.toNat < 32 then Option.none
    else (parseJStringChars fuel rest).map (fun p => (c :: p.1, p.2))

/-- A JSON number.  An integer part alone gives a Python `int`; a fraction
or exponent makes it a `float`, represented by the consumed literal. -/
def parseJNumber (cs : List Char) : Option (PyVal × List Char) :=
  let core := fun (neg : Bool) (cs1 : List Char) =>
    let intDigits := cs1.takeWhile Char.isDigit
    let rest1 := cs1.dropWhile Char.isDigit
    if intDigits.isEmpty then Option.none
    else if intDigits.length > 1 && intDigits.headD '0' = '0' then Option.none
    else
      let finishFloat := fun (fracDigits expPart : List Char) (rest : List Char) =>
        let signChars : List Char := if neg then ['-'] else []
        some (PyVal.float ⟨signChars ++ intDigits ++ fracDigits ++ expPart⟩, rest)
      let parseExp := fun (fracDigits : List Char) (restF : List Char) =>
        match restF with
        | e :: restE =>
          if e = 'e' || e = 'E' then
            let signedRest := match restE with
              | s :: r2 => if s = '+' || s = '-' then ([s], r2) else (([] : List Char), restE)
              | [] => ([], restE)
            let expDigits := signedRest.2.takeWhile Char.isDigit
            let restX := signedRest.2.dropWhile Char.isDigit
            if expDigits.isEmpty then Option.none
            else finishFloat fracDigits (e :: signedRest.1 ++ expDigits) restX
          else finishFloat fracDigits [] restF
        | [] => finishFloat fracDigits [] restF
      match rest1 with
      | '.' :: rest2 =>
        let fracDigits := rest2.takeWhile Char.isDigit
        let rest3 := rest2.dropWhile Char.isDigit
        if fracDigits.isEmpty then Option.none
        else parseExp ('.' :: fracDigits) rest3
      | _ =>
        match rest1 with
        | e :: _ =>
          if e = 'e' || e = 'E' then parseExp [] rest1
          else
            let v : Int := Int.ofNat (digitsToNat intDigits)
            some (PyVal.int (if neg then -v else v), rest1)
        | [] =>
          let v : Int := Int.ofNat (digitsToNat intDigits)
          some (PyVal.int (if neg then -v else v), rest1)
  match cs with
  | '-' :: rest => core true rest
  | _ => core false cs

/-- Literal keyword at the head of the input. -/
def takesLit (lit : List Char) (cs : List Char) : Option (List Char) :=
  match lit, cs with
  | [], rest => some rest
  | l :: lt, c :: ct => if c = l then takesLit lt ct else Option.none
  | _ :: _, [] => Option.none

mutual
/-- One JSON value at the head of the input (leading whitespace already
consumed). -/
def parseJValue : Nat → List Char → Option (PyVal × List Char)
  | 0, _ => Option.none
  | _, [] => Option.none
  | fuel + 1, c :: rest =>
    if c = '"' then
      (parseJStringChars (fuel + 1) rest).map (fun p => (PyVal.str ⟨p.1⟩, p.2))
    else if c = '[' then
      match skipWs rest with
      | ']' :: r => some (PyVal.list .nil, r)
      | cs1 => (parseJArrayItems fuel cs1).map (fun p => (PyVal.list p.1, p.2))
    else if c = '\x7b' then
      match skipWs rest with
      | '\x7d' :: r => some (PyVal.dict .nil, r)
      | cs1 => (parseJObjectItems fuel cs1).map (fun p => (PyVal.dict p.1, p.2))
    else if c = 't' then (takesLit ['r', 'u', 'e'] rest).map (fun r => (PyVal.bool true, r))
    else if c = 'f' then (takesLit ['a', 'l', 's', 'e'] rest).map (fun r => (PyVal.bool false, r))
    else if c = 'n' then (takesLit ['u', 'l', 'l'] rest).map (fun r => (PyVal.none, r))
    else if c = 'N' then (takesLit ['a', 'N'] rest).map (fun r => (PyVal.float "nan", r))
    else if c = 'I' then
      (takesLit ['n', 'f', 'i', 'n', 'i', 't', 'y'] rest).map (fun r => (PyVal.float "inf", r))
    else if c = '-' then
      match rest with
      | 'I' :: r2 =>
        (takesLit ['n', 'f', 'i', 'n', 'i', 't', 'y'] r2).map (fun r => (PyVal.float "-inf", r))
      | _ => parseJNumber (c :: rest)
    else parseJNumber (c :: rest)

/-- The (nonempty) comma-separated items of an array, up to `]`. -/
def parseJArrayItems : Nat → List Char → Option (PyList × List Char)
  | 0, _ => Option.none
  | fuel + 1, cs =>
    match parseJValue fuel cs with
    | Option.none => Option.none
    | some (v, rest) =>
      match skipWs rest with
      | ',' :: r2 =>
        (parseJArrayItems fuel (skipWs r2)).map (fun p => (PyList.cons v p.1, p.2))
      | ']' :: r2 => some (PyList.cons v .nil, r2)
      | _ => Option.none

/-- The (nonempty) comma-separated `"key": value` pairs of an object, up
to the closing brace. -/
def parseJObjectItems : Nat → List Char → Option (PyDict × List Char)
  | 0, _ => Option.none
  | fuel + 1, cs =>
    match cs with
    | '"' :: rest =>
      match parseJStringChars (fuel + 1) rest with
      | Option.none => Option.none
      | some (key, rest1) =>
        match skipWs rest1 with
        | ':' :: rest2 =>
          match parseJValue fuel (skipWs rest2) with
          | Option.none => Option.none
          | some (v, rest3) =>
            match skipWs rest3 with
            | ',' :: r2 =>
              (parseJObjectItems fuel (skipWs r2)).map
                (fun p => (PyDict.cons ⟨key⟩ v p.1, p.2))
            | '\x7d' :: r2 => some (PyDict.cons ⟨key⟩ v .nil, r2)
            | _ => Option.none
        | _ => Option.none
    | _ => Option.none
end

/-- `json.loads`: parse one value, demand only whitespace after it.
The fuel bound exceeds any possible recursion depth (each recursive
descent consumes at least one character). -/
def json_loads (s : String) : Option PyVal :=
  match parseJValue (s.length * 2 + 8) (skipWs s.data) with
  | some (v, rest) => if (skipWs rest).isEmpty then some v else Option.none
  | Option.none => Option.none

/-! ### `normalize_list` (`feishu_task_api_v2_utils.py`, lines 34-81) -/

/-- The shared list comprehension
`[str(x).strip() for x in xs if x and str(x).strip()]`. -/
def strComp (xs : List PyVal) : List String :=
  (xs.filter (fun x => pyTruthy x && !(stripStr (pyStr x)).isEmpty)).map
    (fun x => stripStr (pyStr x))

/-- `cleaned.split(",")` (Python `str.split` with an explicit separator:
adjacent separators yield empty segments, the empty string yields one
empty segment). -/
def splitOnComma : List Char → List (List Char)
  | [] => [[]]
  | c :: rest =>
    let r := splitOnComma rest
    if c = ',' then [] :: r
    else
      match r with
      | [] => [[c]]
      | seg :: segs => (c :: seg) :: segs

/-- The comma-separated fallback cleanup of `normalize_list`: newlines and
semicolons become commas; brackets, braces and both kinds of quote are
removed. -/
def csvClean (cs : List Char) : List Char :=
  ((cs.map (fun c => if c = '\n' then ',' else c)).map
      (fun c => if c = ';' then ',' else c)).filter
    (fun c => !(c = '\x7b' || c = '\x7d' || c = '[' || c = ']' || c = '"' || c = '\''))

/-- `normalize_list` (`feishu_task_api_v2_utils.py`): coerce a
possibly-string, possibly-sequence value to a list of non-blank stripped
strings.  A string is first `strip`ped, tried as JSON (a JSON list is
normalized element-wise), and otherwise split on commas after cleanup;
any other type yields `[]`. -/
def normalize_list (value : PyVal) : List String :=
  match value with
  | .list xs => strComp xs.toList
  | .tuple xs => strComp xs.toList
  | .set xs => strComp xs.toList
  | .str v =>
    let s := stripStr v
    if s.isEmpty then []
    else
      match json_loads s with
      | some (.list xs) => strComp xs.toList
      | _ =>
        let cleaned := csvClean s.data
        let parts := (splitOnComma cleaned).map (fun cs => (⟨cs⟩ : String))
        (parts.filter (fun x => !x.isEmpty && !(stripStr x).isEmpty)).map stripStr
  | _ => []

/-! ### `to_timestamp_str` (`feishu_task_api_v2_utils.py`, lines 114-132)

The source parses `time_str` with
`datetime.strptime(time_str, "%Y-%m-%d %H:%M:%S")`, attaches the pytz zone
with `.replace(tzinfo=pytz.timezone(tz))` and takes `.timestamp()`.
`timestamp()` of an aware datetime is exactly
(wall-clock seconds since the epoch) − (the zone offset the attached
tzinfo reports), and `int(ts_sec * 1000)` is exact for whole-second
datetimes (the double is an integer well below 2^53), so the arithmetic is
modelled over `Int`. -/

def isLeapYear (y : Nat) : Bool :=
  (y % 4 == 0 && y % 100 != 0) || y % 400 == 0

def daysInMonth (y m : Nat) : Nat :=
  if m = 2 then (if isLeapYear y then 29 else 28)
  else if m = 4 || m = 6 || m = 9 || m = 11 then 30
  else 31

/-- Days from 1970-01-01 to the civil date `y-m-d` (proleptic Gregorian;
the standard era-based algorithm, for years ≥ 1). -/
def civilDays (y m d : Nat) : Int :=
  let yAdj : Nat := if m ≤ 2 then y - 1 else y
  let era : Nat := yAdj / 400
  let yoe : Nat := yAdj % 400
  let mp : Nat := if m > 2 then m - 3 else m + 9
  let doy : Nat := (153 * mp + 2) / 5 + d - 1
  let doe : Nat := yoe * 365 + yoe / 4 - yoe / 100 + doy
  (era * 146097 + doe : Int) - 719468

/-- One numeric field of `strptime` for the two-digit directives of the
format `"%Y-%m-%d %H:%M:%S"`: like the CPython `_strptime` regex, two
digits are taken when they form a value in range (`lo2`..`hi`), otherwise
one digit with value at least `lo1` (the optional space-padded day
alternative of `%d` is not modelled; no claim exercises it). -/
def parseNum2 (lo2 lo1 hi : Nat) (cs : List Char) : Option (Nat × List Char) :=
  match cs with
  | c1 :: c2 :: rest =>
    if c1.isDigit && c2.isDigit then
      let v := (c1.toNat - 48) * 10 + (c2.toNat - 48)
      if lo2 ≤ v ∧ v ≤ hi then some (v, rest)
      else
        let v1 := c1.toNat - 48
        if lo1 ≤ v1 then some (v1, c2 :: rest) else Option.none
    else if c1.isDigit then
      let v1 := c1.toNat - 48
      if lo1 ≤ v1 then some (v1, c2 :: rest) else Option.none
    else Option.none
  | [c1] =>
    if c1.isDigit then
      let v1 := c1.toNat - 48
      if lo1 ≤ v1 then some (v1, []) else Option.none
    else Option.none
  | [] => Option.none

def expectChar (c : Char) (cs : List Char) : Option (List Char) :=
  match cs with
  | x :: rest => if x = c then some rest else Option.none
  | [] => Option.none

/-- `datetime.strptime(s, "%Y-%m-%d %H:%M:%S")`: a four-digit year, then
month/day/hour/minute/second fields as matched by `_strptime` (seconds up
to 61 at the regex), the whole string consumed, followed by the range
checks of the `datetime` constructor (year ≥ 1, day fitting the month,
second ≤ 59). -/
def strptime_ymd_hms (s : String) : Option (Nat × Nat × Nat × Nat × Nat × Nat) :=
  match s.data with
  | y1 :: y2 :: y3 :: y4 :: rest0 =>
    if y1.isDigit && y2.isDigit && y3.isDigit && y4.isDigit then
      let y := ((y1.toNat - 48) * 10 + (y2.toNat - 48)) * 100 +
        (y3.toNat - 48) * 10 + (y4.toNat - 48)
      match expectChar '-' rest0 with
      | Option.none => Option.none
      | some rest1 =>
        match parseNum2 1 1 12 rest1 with
        | Option.none => Option.none
        | some (m, rest2) =>
          match expectChar '-' rest2 with
          | Option.none => Option.none
          | some rest3 =>
            match parseNum2 1 1 31 rest3 with
            | Option.none => Option.none
            | some (d, rest4) =>
              match expectChar ' ' rest4 with
              | Option.none => Option.none
              | some rest5 =>
                match parseNum2 0 0 23 rest5 with
                | Option.none => Option.none
                | some (hh, rest6) =>
                  match expectChar ':' rest6 with
                  | Option.none => Option.none
                  | some rest7 =>
                    match parseNum2 0 0 59 rest7 with
                    | Option.none => Option.none
                    | some (mi, rest8) =>
                      match expectChar ':' rest8 with
                      | Option.none => Option.none
                      | some rest9 =>
                        match parseNum2 0 0 61 rest9 with
                        | Option.none => Option.none
                        | some (ss, rest10) =>
                          if rest10.isEmpty ∧ 1 ≤ y ∧ d ≤ daysInMonth y m ∧ ss ≤ 59 then
                            some (y, m, d, hh, mi, ss)
                          else Option.none
    else Option.none
  | _ => Option.none

/-- Modelled from the pytz library: the UTC offset (in seconds) that a
datetime carries after `.replace(tzinfo=pytz.timezone(z))`.  A pytz
`DstTzInfo` attached this way reports the zone's first transition info —
for `Asia/Shanghai` the pre-1901 local mean time +8:05:43, which pytz
stores rounded to whole minutes as +8:06:00 (29160 s); `UTC` is 0.  The
table is partial: names outside it model `pytz.UnknownTimeZoneError`
(which is accurate for the misspelled or fictional zone names the
validation path is concerned with). -/
def pytz_replace_utcoffset : String → Option Int
  | "Asia/Shanghai" => some 29160
  | "UTC" => some 0
  | _ => Option.none

/-- Modelled from the spec: the true UTC offset (in seconds) of a 2023
wall-clock instant in the zone, per the tz database — `Asia/Shanghai` is
UTC+8 (no daylight saving since 1991); `UTC` is 0. -/
def tzdata_utcoffset : String → Option Int
  | "Asia/Shanghai" => some 28800
  | "UTC" => some 0
  | _ => Option.none

/-- `FeishuRequestV2.to_timestamp_str`: empty input gives `None`; an
unknown zone or an unparsable time string raises; otherwise the result is
the string of `int(dt.timestamp() * 1000)` for the parsed wall-clock time
carrying the pytz-`replace` offset. -/
def to_timestamp_str (time_str : String) (tz : String) : Except String (Option String) :=
  if time_str.isEmpty then .ok Option.none
  else
    match pytz_replace_utcoffset tz with
    | Option.none => .error ("Unknown time zone: " ++ tz)
    | some off =>
      match strptime_ymd_hms time_str with
      | Option.none => .error ("Invalid time string: " ++ time_str)
      | some (y, m, d, hh, mi, ss) =>
        let wall : Int := civilDays y m d * 86400 + hh * 3600 + mi * 60 + ss
        .ok (some (toString ((wall - off) * 1000)))

/-- Modelled from the spec: "converting local date-time strings into the
provider's millisecond-epoch timestamp format" — the UTC millisecond
timestamp of the wall-clock instant interpreted at the zone's true UTC
offset, all else as in the code. -/
def spec_to_timestamp_str (time_str : String) (tz : String) : Except String (Option String) :=
  if time_str.isEmpty then .ok Option.none
  else
    match tzdata_utcoffset tz with
    | Option.none => .error ("Unknown time zone: " ++ tz)
    | some off =>
      match strptime_ymd_hms time_str with
      | Option.none => .error ("Invalid time string: " ++ time_str)
      | some (y, m, d, hh, mi, ss) =>
        let wall : Int := civilDays y m d * 86400 + hh * 3600 + mi * 60 + ss
        .ok (some (toString ((wall - off) * 1000)))

/-! ### The HTTP client `FeishuRequestV2` -/

/-- One HTTP call as issued through `httpx.request`. -/
structure HttpRequest where
  method : String
  url : String
  headers : List (String × String)
  payload : Option PyVal
  params : List (String × String)

/-- What one HTTP call produced: a transport failure
(`httpx.RequestError`), an unparsable body (`json.JSONDecodeError` from
`response.json()`), or the parsed JSON body. -/
inductive HttpResult where
  | requestError (msg : String)
  | invalidJson
  | ok (body : PyVal)

/-- The network, as the operation under verification sees it: what each
issued request comes back with. -/
def Env := HttpRequest → HttpResult

/-- The client object: an application credential pair and a time-zone
default. -/
structure FeishuRequestV2 where
  app_id : String
  app_secret : String
  tz : String := "Asia/Shanghai"

def API_BASE_URL : String := "https://open.feishu.cn/open-apis"

/-- The headers every request starts from. -/
def base_headers : List (String × String) :=
  [("Content-Type", "application/json"), ("User-Agent", "Dify")]

/-- Python `x != 0` for a JSON-decoded value: an `int` 0, a `bool` `False`
or a float zero all compare equal to 0. -/
def pyEqZero : PyVal → Bool
  | .int n => n == 0
  | .bool b => !b
  | .float lex => floatLexIsZero lex
  | _ => false

/-- The `res.get("code") != 0` test of `_send_request`: true exactly when
the body is a dict whose `"code"` entry compares equal to 0.  (On a
non-dict body the attribute access itself raises; that case lands in the
raising branch like a non-zero code.) -/
def responseCodeIsZero (res : PyVal) : Bool :=
  match res with
  | .dict d =>
    match PyDict.get d "code" with
    | some v => pyEqZero v
    | Option.none => false
  | _ => false

/-- The error text of the non-zero-code branch of `_send_request`
(`f"Feishu API Error: ..."`; for a non-dict body the `res.get` attribute
error is reported instead). -/
def feishuErrorMsg (res : PyVal) : String :=
  match res with
  | .dict d =>
    let m := match PyDict.get d "msg" with
      | some v => pyStr v
      | Option.none => "Unknown error"
    "Feishu API Error: " ++ m ++ ". Response: " ++ pyRepr res
  | _ => "AttributeError: response object has no attribute get"

/-- The body shared by every call of `_send_request` once the headers are
fixed: issue the request, then raise on transport failure, on an
unparsable body, or on a non-zero `"code"`; otherwise return the parsed
body.  Returns the issued request next to the outcome. -/
def send_request_core (env : Env) (headers : List (String × String)) (url method : String)
    (payload : Option PyVal) (params : List (String × String)) :
    HttpRequest × Except String PyVal :=
  let req : HttpRequest := ⟨method, url, headers, payload, params⟩
  (req,
    match env req with
    | .requestError e => .error ("HTTP request failed: " ++ e)
    | .invalidJson => .error "Invalid JSON response from Feishu API"
    | .ok res =>
      if responseCodeIsZero res then .ok res else .error (feishuErrorMsg res))

/-- The token request `get_tenant_access_token` sends
(`_send_request` with `require_token=False` on the token endpoint). -/
def token_request (app_id app_secret : String) : HttpRequest :=
  ⟨"post", API_BASE_URL ++ "/auth/v3/tenant_access_token/internal", base_headers,
    some (.dict (.cons "app_id" (.str app_id) (.cons "app_secret" (.str app_secret) .nil))),
    []⟩

/-- `FeishuRequestV2.get_tenant_access_token`: fetch the token envelope
through `_send_request(require_token=False)`, then re-check the status
code (redundantly — the sender already raised on it) and return the
envelope.  (The method reads only its two explicit arguments, not
`self`.) -/
def get_tenant_access_token (env : Env) (app_id app_secret : String) :
    List HttpRequest × Except String PyVal :=
  let sent := send_request_core env base_headers
    (API_BASE_URL ++ "/auth/v3/tenant_access_token/internal") "post"
    (some (.dict (.cons "app_id" (.str app_id) (.cons "app_secret" (.str app_secret) .nil))))
    []
  ([sent.1],
    match sent.2 with
    | .error e => .error e
    | .ok res =>
      if !responseCodeIsZero res then .error ("Exception: " ++ pyRepr res) else .ok res)

/-- The `tenant_access_token` property: fetch the envelope with the
client's credentials and read `res.get("tenant_access_token")` (absent
key gives `None`, which the caller's f-string renders as `"None"`). -/
def tenant_access_token (c : FeishuRequestV2) (env : Env) :
    List HttpRequest × Except String (Option PyVal) :=
  match get_tenant_access_token env c.app_id c.app_secret with
  | (tr, .error e) => (tr, .error e)
  | (tr, .ok res) => (tr, .ok (pyGet res "tenant_access_token"))

/-- The `str()` rendering an f-string applies to `dict.get`'s result. -/
def pyStrOfGet : Option PyVal → String
  | some v => pyStr v
  | Option.none => "None"

/-- `FeishuRequestV2._send_request`: when a token is required, evaluate
the `tenant_access_token` property (itself one HTTP call) and add the
`Authorization: Bearer ...` header; then send.  The first component lists
every HTTP call made, in order. -/
def _send_request (c : FeishuRequestV2) (env : Env) (url method : String)
    (require_token : Bool) (payload : Option PyVal) (params : List (String × String)) :
    List HttpRequest × Except String PyVal :=
  if require_token then
    match tenant_access_token c env with
    | (tr, .error e) => (tr, .error e)
    | (tr, .ok tok) =>
      let headers := base_headers ++ [("Authorization", "Bearer " ++ pyStrOfGet tok)]
      let sent := send_request_core env headers url method payload params
      (tr ++ [sent.1], sent.2)
  else
    let sent := send_request_core env base_headers url method payload params
    ([sent.1], sent.2)

/-! ### The client operations -/

/-- A `{"id": ..., "role": ...}` member entry of `create_task`. -/
def member_entry (id role : String) : PyVal :=
  .dict (.cons "id" (.str id) (.cons "role" (.str role) .nil))

/-- The `members` list `create_task` builds (lines 208-214): every id of
`assignees_members` with role `"assignee"`, then every id of
`followers_members` with role `"follower"` (each block guarded by the
list's truthiness, which leaves an empty list alone). -/
def create_task_members (assignees followers : List String) : List PyVal :=
  (if assignees.isEmpty then [] else assignees.map (fun m => member_entry m "assignee")) ++
    (if followers.isEmpty then [] else followers.map (fun m => member_entry m "follower"))

/-- The value a payload holds for an `Optional[str]` timestamp
(`None` serializes to JSON null). -/
def jOfOptStr : Option String → PyVal
  | some t => .str t
  | Option.none => .none

/-- The payload `create_task` builds, in source order (summary;
description; due; start; completed_at; members; reminders), raising out
of any failing timestamp conversion. -/
def create_task_payload (summary : String) (description : Option String)
    (start_time : Option String) (start_time_is_all_day : Bool)
    (due_date : Option String) (end_time_is_all_day : Bool)
    (completed_at : Option String) (relative_fire_minute : Option Int)
    (assignees_members followers_members : List String) (tz : String) :
    Except String (List (String × PyVal)) := do
  let p0 := [("summary", PyVal.str summary)]
  let p1 := match description with
    | Option.none => p0
    | some d => p0 ++ [("description", PyVal.str d)]
  let p2 ← match due_date with
    | Option.none => pure p1
    | some dd => do
      let ts ← to_timestamp_str dd tz
      pure (p1 ++ [("due", PyVal.dict
        (.cons "timestamp" (jOfOptStr ts) (.cons "is_all_day" (.bool end_time_is_all_day) .nil)))])
  let p3 ← match start_time with
    | Option.none => pure p2
    | some st => do
      let ts ← to_timestamp_str st tz
      pure (p2 ++ [("start", PyVal.dict
        (.cons "timestamp" (jOfOptStr ts) (.cons "is_all_day" (.bool start_time_is_all_day) .nil)))])
  let p4 ← match completed_at with
    | Option.none => pure p3
    | some ca => do
      let ts ← to_timestamp_str ca tz
      pure (p3 ++ [("completed_at", jOfOptStr ts)])
  let members := create_task_members assignees_members followers_members
  let p5 := if members.isEmpty then p4 else p4 ++ [("members", PyVal.list (.ofList members))]
  let p6 := match relative_fire_minute with
    | Option.none => p5
    | some k => p5 ++ [("reminders", PyVal.list
        (.cons (.dict (.cons "relative_fire_minute" (.int k) .nil)) .nil))]
  pure p6

/-- Build a `PyDict` from an association list in insertion order. -/
def pyDictOf : List (String × PyVal) → PyDict
  | [] => .nil
  | (k, v) :: rest => .cons k v (pyDictOf rest)

/-- `FeishuRequestV2.create_task`: build the payload (raising out of a bad
time string before any HTTP call) and POST it to the task endpoint with a
token. -/
def create_task (c : FeishuRequestV2) (env : Env) (summary : String)
    (description : Option String) (start_time : Option String) (start_time_is_all_day : Bool)
    (due_date : Option String) (end_time_is_all_day : Bool) (completed_at : Option String)
    (relative_fire_minute : Option Int) (assignees_members followers_members : List String)
    (tz : String) : List HttpRequest × Except String PyVal :=
  match create_task_payload summary description start_time start_time_is_all_day due_date
      end_time_is_all_day completed_at relative_fire_minute assignees_members followers_members
      tz with
  | .error e => ([], .error e)
  | .ok payload =>
    _send_request c env (API_BASE_URL ++ "/task/v2/tasks") "post" true
      (some (.dict (pyDictOf payload))) []

/-- `FeishuRequestV2.delete_task`: DELETE the task's URL with a token and
no payload. -/
def delete_task (c : FeishuRequestV2) (env : Env) (task_id : String) :
    List HttpRequest × Except String PyVal :=
  _send_request c env (API_BASE_URL ++ "/task/v2/tasks/" ++ task_id) "delete" true
    Option.none []

/-- Python `"@" in item`. -/
def hasAtSign (s : String) : Bool :=
  s.data.contains '@'

/-- The partition loop of `get_userID_from_email_phone` (lines 244-250):
items with an `@` are appended to `emails`, the rest to `mobiles`, in
input order. -/
def split_emails_mobiles : List String → List String × List String
  | [] => ([], [])
  | item :: rest =>
    let p := split_emails_mobiles rest
    if hasAtSign item then (item :: p.1, p.2) else (p.1, item :: p.2)

def pyStrList (l : List String) : PyVal :=
  .list (.ofList (l.map PyVal.str))

/-- The payload of `get_userID_from_email_phone` (lines 251-255). -/
def get_userID_payload (email_or_phone : List String) : PyVal :=
  .dict (.cons "emails" (pyStrList (split_emails_mobiles email_or_phone).1)
    (.cons "mobiles" (pyStrList (split_emails_mobiles email_or_phone).2)
      (.cons "include_resigned" (.bool false) .nil)))

/-- `FeishuRequestV2.get_userID_from_email_phone`: POST the partitioned
contacts to the batch lookup endpoint with a token and
`user_id_type=open_id`. -/
def get_userID_from_email_phone (c : FeishuRequestV2) (env : Env)
    (email_or_phone : List String) : List HttpRequest × Except String PyVal :=
  _send_request c env (API_BASE_URL ++ "/contact/v3/users/batch_get_id") "post" true
    (some (get_userID_payload email_or_phone)) [("user_id_type", "open_id")]

/-- A `{"id": ..., "role": ..., "type": ...}` entry of `add_members`. -/
def add_member_entry (id role type : String) : PyVal :=
  .dict (.cons "id" (.str id) (.cons "role" (.str role) (.cons "type" (.str type) .nil)))

/-- The payload of `FeishuRequestV2.add_members`: every user id with the
given role and type, plus the client token when that is truthy. -/
def add_members_payload (user_ids : List String) (member_role member_type : String)
    (client_token : Option String) : List (String × PyVal) :=
  let base := [("members",
    PyVal.list (.ofList (user_ids.map (fun m => add_member_entry m member_role member_type))))]
  match client_token with
  | some t => if !t.isEmpty then base ++ [("client_token", PyVal.str t)] else base
  | Option.none => base

/-- `FeishuRequestV2.add_members`: POST the member entries to the task's
`add_members` endpoint with a token and `user_id_type=open_id`. -/
def add_members (c : FeishuRequestV2) (env : Env) (task_id : String)
    (user_ids : List String) (member_role member_type : String)
    (client_token : Option String) : List HttpRequest × Except String PyVal :=
  _send_request c env (API_BASE_URL ++ "/task/v2/tasks/" ++ task_id ++ "/add_members") "post"
    true (some (.dict (pyDictOf (add_members_payload user_ids member_role member_type
      client_token)))) [("user_id_type", "open_id")]

/-- One `if <param> is not None` block of `update_task` for a plain string
field: append the entry to the `task` object and the key to
`update_fields`. -/
def upd_plain (key : String) (v : Option String)
    (acc : List (String × PyVal) × List String) : List (String × PyVal) × List String :=
  match v with
  | Option.none => acc
  | some x => (acc.1 ++ [(key, PyVal.str x)], acc.2 ++ [key])

/-- One `if <param> is not None` block of `update_task` for a timestamp
field: convert (raising out of a bad time string), then append the entry
built by `mk` and the key. -/
def upd_time (key : String) (mk : Option String → PyVal) (v : Option String) (tz : String)
    (acc : List (String × PyVal) × List String) :
    Except String (List (String × PyVal) × List String) :=
  match v with
  | Option.none => pure acc
  | some x => do
    let ts ← to_timestamp_str x tz
    pure (acc.1 ++ [(key, mk ts)], acc.2 ++ [key])

/-- The `{"timestamp": ..., "is_all_day": False}` object of `update_task`'s
`start` and `due` entries. -/
def upd_time_obj (ts : Option String) : PyVal :=
  .dict (.cons "timestamp" (jOfOptStr ts) (.cons "is_all_day" (.bool false) .nil))

/-- The `task` object and `update_fields` list `update_task` builds
(lines 328-352), in source order (summary, description, start, due,
completed_at), raising out of any failing timestamp conversion. -/
def update_task_payload (summary description start_time due_date completed_at : Option String)
    (tz : String) : Except String (List (String × PyVal) × List String) := do
  let a2 := upd_plain "description" description (upd_plain "summary" summary ([], []))
  let a3 ← upd_time "start" upd_time_obj start_time tz a2
  let a4 ← upd_time "due" upd_time_obj due_date tz a3
  let a5 ← upd_time "completed_at" jOfOptStr completed_at tz a4
  pure a5

/-- `FeishuRequestV2.update_task`: PATCH the task with the built `task`
object and `update_fields` list. -/
def update_task (c : FeishuRequestV2) (env : Env) (task_id : String)
    (summary description start_time due_date completed_at : Option String) (tz : String) :
    List HttpRequest × Except String PyVal :=
  match update_task_payload summary description start_time due_date completed_at tz with
  | .error e => ([], .error e)
  | .ok (task, fields) =>
    _send_request c env (API_BASE_URL ++ "/task/v2/tasks/" ++ task_id) "patch" true
      (some (.dict (.cons "task" (.dict (pyDictOf task))
        (.cons "update_fields" (pyStrList fields) .nil))))
      [("user_id_type", "open_id")]

/-! ### The tool layer (`tools/add_members.py`) -/

/-- `AddMembersTool._invoke` up to the yielded message: the validation
chain (required `task_guid`, role within the two member roles, type within
user/app, at least one normalized member id) raises — caught by the tool
and turned into an error message — before `client.add_members` is ever
called; afterwards the client call runs.  The first component is again the
list of HTTP calls made. -/
def add_members_tool_invoke (c : FeishuRequestV2) (env : Env) (task_guid : Option String)
    (member_ids : PyVal) (member_role member_type : String) (client_token : Option String) :
    List HttpRequest × Except String PyVal :=
  match task_guid with
  | Option.none => ([], .error "task_guid is required")
  | some g =>
    if g.isEmpty then ([], .error "task_guid is required")
    else if member_role ≠ "assignee" ∧ member_role ≠ "follower" then
      ([], .error "member_role must be assignee or follower")
    else if member_type ≠ "user" ∧ member_type ≠ "app" then
      ([], .error "member_type must be user or app")
    else
      let user_ids := normalize_list member_ids
      if user_ids.isEmpty then ([], .error "member_ids must provide at least one member")
      else add_members c env g user_ids member_role member_type client_token

/-! ### Concrete fixtures used to evaluate the model -/

/-- A concrete client. -/
def test_client : FeishuRequestV2 :=
  ⟨"app", "secret", "Asia/Shanghai"⟩

/-- A success envelope carrying a token, as the token endpoint returns. -/
def token_ok_body : PyVal :=
  .dict (.cons "code" (.int 0) (.cons "tenant_access_token" (.str "tok123") .nil))

/-- A network where every request comes back with the success envelope. -/
def env_all_ok : Env :=
  fun _ => .ok token_ok_body

/-! ### Helper lemmas -/

theorem toList_ofList (l : List PyVal) : (PyList.ofList l).toList = l := by
  induction l with
  | nil => rfl
  | cons h t ih => simp [PyList.ofList, PyList.toList, ih]

theorem stripChars_idem (l : List Char) : stripChars (stripChars l) = stripChars l := by
  have hform : ∀ m : List Char, stripChars m = List.rdropWhile isPySpace (m.dropWhile isPySpace) := by
    intro m; rfl
  set A := l.dropWhile isPySpace with hA
  have hAd : A.dropWhile isPySpace = A := List.dropWhile_idempotent isPySpace l
  have hpre : List.rdropWhile isPySpace A <+: A := List.rdropWhile_prefix isPySpace A
  have h2 : (List.rdropWhile isPySpace A).dropWhile isPySpace = List.rdropWhile isPySpace A := by
    rcases hB : List.rdropWhile isPySpace A with _ | ⟨b, t⟩
    · rfl
    · rw [List.dropWhile_eq_self_iff]
      intro hl
      obtain ⟨r, hr⟩ := hB ▸ hpre
      have hAcons : A = b :: (t ++ r) := by rw [← hr]; rfl
      have hAd2 : (b :: (t ++ r)).dropWhile isPySpace = b :: (t ++ r) := by
        rw [← hAcons]; exact hAd
      have hb : ¬isPySpace b = true := by
        have h0 : 0 < (b :: (t ++ r)).length := by simp
        have := List.dropWhile_eq_self_iff.mp hAd2 h0
        simpa using this
      simpa using hb
  calc stripChars (stripChars l)
      = List.rdropWhile isPySpace ((List.rdropWhile isPySpace A).dropWhile isPySpace) := by
        rw [hform (stripChars l), hform l]
    _ = List.rdropWhile isPySpace (List.rdropWhile isPySpace A) := by rw [h2]
    _ = List.rdropWhile isPySpace A := List.rdropWhile_idempotent isPySpace A
    _ = stripChars l := (hform l).symm

theorem data_stripStr (s : String) : (stripStr s).data = stripChars s.data := rfl

theorem stripStr_idem (s : String) : stripStr (stripStr s) = stripStr s := by
  apply congrArg String.mk
  rw [data_stripStr]
  exact stripChars_idem s.data

/-- Every string the comprehension `strComp` keeps is non-empty and is its
own strip. -/
theorem mem_strComp {s : String} {xs : List PyVal} (h : s ∈ strComp xs) :
    s ≠ "" ∧ stripStr s = s := by
  simp only [strComp, List.mem_map] at h
  obtain ⟨x, hx, rfl⟩ := h
  have hcond := List.of_mem_filter hx
  have h2 : (stripStr (pyStr x)).isEmpty = false := by
    rcases Bool.and_eq_true_iff.mp hcond with ⟨_, hb⟩
    simpa using hb
  refine ⟨fun h0 => ?_, stripStr_idem (pyStr x)⟩
  rw [h0] at h2
  exact absurd h2 (by decide)

/-- Every string kept by the comma-split fallback is non-empty and is its
own strip. -/
theorem mem_csvParts {s : String} {parts : List String}
    (h : s ∈ (parts.filter (fun x => !x.isEmpty && !(stripStr x).isEmpty)).map stripStr) :
    s ≠ "" ∧ stripStr s = s := by
  simp only [List.mem_map] at h
  obtain ⟨x, hx, rfl⟩ := h
  have hcond := List.of_mem_filter hx
  have h2 : (stripStr x).isEmpty = false := by
    rcases Bool.and_eq_true_iff.mp hcond with ⟨_, hb⟩
    simpa using hb
  refine ⟨fun h0 => ?_, stripStr_idem x⟩
  rw [h0] at h2
  exact absurd h2 (by decide)

/-- The invariant of `normalize_list`: every returned element is non-empty
and carries no surrounding whitespace (it is a fixed point of `strip`). -/
theorem normalize_list_mem {v : PyVal} {s : String} (h : s ∈ normalize_list v) :
    s ≠ "" ∧ stripStr s = s := by
  cases v with
  | list xs => exact mem_strComp h
  | tuple xs => exact mem_strComp h
  | set xs => exact mem_strComp h
  | str t =>
    simp only [normalize_list] at h
    by_cases he : (stripStr t).isEmpty
    · simp [he] at h
    · simp only [he, if_false] at h
      rcases hj : json_loads (stripStr t) with _ | jv
      · rw [hj] at h
        exact mem_csvParts h
      · cases jv with
        | list xs => rw [hj] at h; exact mem_strComp h
        | none => rw [hj] at h; exact mem_csvParts h
        | bool b => rw [hj] at h; exact mem_csvParts h
        | int n => rw [hj] at h; exact mem_csvParts h
        | float lex => rw [hj] at h; exact mem_csvParts h
        | str s2 => rw [hj] at h; exact mem_csvParts h
        | tuple xs => rw [hj] at h; exact mem_csvParts h
        | set xs => rw [hj] at h; exact mem_csvParts h
        | dict kvs => rw [hj] at h; exact mem_csvParts h
        | other r b => rw [hj] at h; exact mem_csvParts h
  | none => simp [normalize_list] at h
  | bool b => simp [normalize_list] at h
  | int n => simp [normalize_list] at h
  | float lex => simp [normalize_list] at h
  | dict kvs => simp [normalize_list] at h
  | other r b => simp [normalize_list] at h

/-- `strComp` leaves a list of non-blank stripped strings unchanged. -/
theorem strComp_fixed (l : List String) (h : ∀ s ∈ l, s ≠ "" ∧ stripStr s = s) :
    strComp (l.map PyVal.str) = l := by
  induction l with
  | nil => rfl
  | cons x t ih =>
    obtain ⟨hx0, hxs⟩ := h x (by simp)
    have hne : x.isEmpty = false := by
      cases he : x.isEmpty
      · rfl
      · exact absurd ((String.isEmpty_iff x).mp he) hx0
    have hcond : (pyTruthy (PyVal.str x) && !(stripStr (pyStr (PyVal.str x))).isEmpty) = true := by
      simp [pyTruthy, pyStr, hne, hxs]
    simp only [List.map_cons, strComp, List.filter_cons, hcond, if_true, List.map_cons]
    have := ih (fun s hs => h s (by simp [hs]))
    simp only [strComp] at this
    rw [this]
    simp [pyStr, hxs]

/-! ### Claims -/

/-- C1: the claim states that `to_timestamp_str` returns the UTC
millisecond timestamp of the wall-clock instant interpreted in the given
zone — for `"2023-05-01 14:30:00"` in `Asia/Shanghai`, the instant at
UTC+8, i.e. `"1682922600000"`.  The code instead attaches the pytz zone
with `datetime.replace(tzinfo=...)`, which carries the zone's local-mean-time
offset +8:06 rather than +8:00, so it returns `"1682922240000"` — 360000 ms
early.  This theorem evaluates both the embedded code and the
spec-modelled conversion at that input and records that they differ. -/
theorem claim_C1_to_timestamp_str_shanghai :
    to_timestamp_str "2023-05-01 14:30:00" "Asia/Shanghai" = .ok (some "1682922240000") ∧
    spec_to_timestamp_str "2023-05-01 14:30:00" "Asia/Shanghai" = .ok (some "1682922600000") ∧
    ("1682922240000" : String) ≠ "1682922600000" :=
  ⟨rfl, rfl, by decide⟩

/-- C2: `normalize_list` maps `'a, b ,c'` to `["a", "b", "c"]`,
`'["x","y"]'` to `["x", "y"]`, and each of `""` and `None` to `[]`. -/
theorem claim_C2_normalize_list_examples :
    normalize_list (.str "a, b ,c") = ["a", "b", "c"] ∧
    normalize_list (.str "[\"x\",\"y\"]") = ["x", "y"] ∧
    normalize_list (.str "") = [] ∧
    normalize_list PyVal.none = [] :=
  ⟨rfl, rfl, rfl, rfl⟩

/-- C5: on every input, each string `normalize_list` returns is non-empty
and carries no leading or trailing whitespace (it is a fixed point of
`strip`), and every input of unrecognized type (not a str, list, tuple or
set: `None`, bool, int, float, dict, or any other object) yields `[]`. -/
theorem claim_C5_normalize_list_output_shape (v : PyVal) :
    (∀ s ∈ normalize_list v, s ≠ "" ∧ stripStr s = s) ∧
    normalize_list PyVal.none = [] ∧
    (∀ b, normalize_list (PyVal.bool b) = []) ∧
    (∀ n, normalize_list (PyVal.int n) = []) ∧
    (∀ lex, normalize_list (PyVal.float lex) = []) ∧
    (∀ kvs, normalize_list (PyVal.dict kvs) = []) ∧
    (∀ r b, normalize_list (PyVal.other r b) = []) :=
  ⟨fun _ hs => normalize_list_mem hs, rfl, fun _ => rfl, fun _ => rfl, fun _ => rfl,
    fun _ => rfl, fun _ _ => rfl⟩

/-- Witness for C5, at the concrete input `" a ,, b"`. -/
theorem claim_C5_witness :
    (("a" : String) ≠ "" ∧ stripStr "a" = "a") ∧
    normalize_list (PyVal.other "<object>" true) = [] :=
  ⟨(claim_C5_normalize_list_output_shape (PyVal.str " a ,, b")).1 "a" (by decide),
    (claim_C5_normalize_list_output_shape PyVal.none).2.2.2.2.2.2 "<object>" true⟩

/-- C9: `normalize_list` is idempotent — feeding its result (a Python list
of strings) back in returns the same list. -/
theorem claim_C9_normalize_list_idempotent (v : PyVal) :
    normalize_list (PyVal.list (PyList.ofList ((normalize_list v).map PyVal.str))) =
      normalize_list v := by
  show strComp (PyList.ofList ((normalize_list v).map PyVal.str)).toList = normalize_list v
  rw [toList_ofList]
  exact strComp_fixed _ (fun _ hs => normalize_list_mem hs)

/-! ### Client-layer lemmas -/

/-- The trace of the `tenant_access_token` property is always exactly the
one token request, whatever the network answered. -/
theorem tenant_access_token_trace (c : FeishuRequestV2) (env : Env) :
    (tenant_access_token c env).1 = [token_request c.app_id c.app_secret] := by
  have hget : (get_tenant_access_token env c.app_id c.app_secret).1 =
      [token_request c.app_id c.app_secret] := rfl
  unfold tenant_access_token
  rcases h : get_tenant_access_token env c.app_id c.app_secret with ⟨tr, r⟩
  have htr : tr = [token_request c.app_id c.app_secret] := by
    rw [h] at hget; exact hget
  cases r <;> simpa using htr

/-- When the token fetch succeeds, `_send_request` with a required token
issues exactly the token request followed by the main request carrying the
`Authorization` header, and its outcome is the sender body's outcome under
those headers. -/
theorem _send_request_token_ok (c : FeishuRequestV2) (env : Env) (url method : String)
    (payload : Option PyVal) (params : List (String × String)) (tok : Option PyVal)
    (h : (tenant_access_token c env).2 = .ok tok) :
    _send_request c env url method true payload params =
      ([token_request c.app_id c.app_secret,
        ⟨method, url, base_headers ++ [("Authorization", "Bearer " ++ pyStrOfGet tok)],
          payload, params⟩],
        (send_request_core env
          (base_headers ++ [("Authorization", "Bearer " ++ pyStrOfGet tok)])
          url method payload params).2) := by
  have htr := tenant_access_token_trace c env
  unfold _send_request
  rcases hT : tenant_access_token c env with ⟨tr, r⟩
  rw [hT] at h htr
  simp only at h htr
  cases r with
  | error e => exact absurd h (by simp)
  | ok t =>
    have ht : t = tok := by simpa using h
    subst ht
    simp [htr, send_request_core]

/-- When the token fetch fails, `_send_request` with a required token
issues only the token request and propagates the failure. -/
theorem _send_request_token_error (c : FeishuRequestV2) (env : Env) (url method : String)
    (payload : Option PyVal) (params : List (String × String)) (e : String)
    (h : (tenant_access_token c env).2 = .error e) :
    _send_request c env url method true payload params =
      ([token_request c.app_id c.app_secret], .error e) := by
  have htr := tenant_access_token_trace c env
  unfold _send_request
  rcases hT : tenant_access_token c env with ⟨tr, r⟩
  rw [hT] at h htr
  simp only at h htr
  cases r with
  | error e2 =>
    have : e2 = e := by simpa using h
    subst this
    simp [htr]
  | ok t => exact absurd h (by simp)

/-- C3: `_send_request` raises exactly when the response envelope's
`"code"` is not 0, and on code 0 returns the parsed body unchanged; the
same holds for the token fetch `get_tenant_access_token` (whose second
code check is redundant).  Every client operation returns through these
two, so it raises on — and only on — a non-zero envelope code of whatever
envelope it receives. -/
theorem claim_C3_raise_iff_code_nonzero (env : Env) (headers : List (String × String))
    (url method : String) (payload : Option PyVal) (params : List (String × String))
    (app_id app_secret : String) (body tokBody : PyVal)
    (h : env ⟨method, url, headers, payload, params⟩ = .ok body)
    (htok : env (token_request app_id app_secret) = .ok tokBody) :
    ((send_request_core env headers url method payload params).2 = .ok body ↔
      responseCodeIsZero body = true) ∧
    (responseCodeIsZero body = false →
      ∃ e, (send_request_core env headers url method payload params).2 = .error e) ∧
    ((get_tenant_access_token env app_id app_secret).2 = .ok tokBody ↔
      responseCodeIsZero tokBody = true) ∧
    (responseCodeIsZero tokBody = false →
      ∃ e, (get_tenant_access_token env app_id app_secret).2 = .error e) := by
  have hcore : (send_request_core env headers url method payload params).2 =
      (if responseCodeIsZero body then .ok body else .error (feishuErrorMsg body)) := by
    simp [send_request_core, h]
  have hget : (get_tenant_access_token env app_id app_secret).2 =
      (if responseCodeIsZero tokBody then .ok tokBody else .error (feishuErrorMsg tokBody)) := by
    unfold get_tenant_access_token
    simp only [send_request_core]
    rw [show (⟨"post", API_BASE_URL ++ "/auth/v3/tenant_access_token/internal", base_headers,
      some (.dict (.cons "app_id" (.str app_id) (.cons "app_secret" (.str app_secret) .nil))),
      []⟩ : HttpRequest) = token_request app_id app_secret from rfl, htok]
    by_cases hc : responseCodeIsZero tokBody <;> simp [hc]
  refine ⟨?_, ?_, ?_, ?_⟩
  · rw [hcore]; by_cases hc : responseCodeIsZero body <;> simp [hc]
  · intro hc; rw [hcore, hc]; exact ⟨feishuErrorMsg body, by simp⟩
  · rw [hget]; by_cases hc : responseCodeIsZero tokBody <;> simp [hc]
  · intro hc; rw [hget, hc]; exact ⟨feishuErrorMsg tokBody, by simp⟩

/-- Witness for C3, on a network answering every request with the success
envelope. -/
theorem claim_C3_witness :
    ((send_request_core env_all_ok base_headers "https://u" "post" Option.none []).2 =
        .ok token_ok_body ↔ responseCodeIsZero token_ok_body = true) ∧
    (responseCodeIsZero token_ok_body = false →
      ∃ e, (send_request_core env_all_ok base_headers "https://u" "post" Option.none []).2 =
        .error e) ∧
    ((get_tenant_access_token env_all_ok "app" "secret").2 = .ok token_ok_body ↔
      responseCodeIsZero token_ok_body = true) ∧
    (responseCodeIsZero token_ok_body = false →
      ∃ e, (get_tenant_access_token env_all_ok "app" "secret").2 = .error e) :=
  claim_C3_raise_iff_code_nonzero env_all_ok base_headers "https://u" "post" Option.none []
    "app" "secret" token_ok_body token_ok_body rfl rfl

/-- C4, counterexample: the claim says every client operation issues
exactly one HTTP call per invocation; but `create_task` (like every
authenticated operation), holding no token cache, first evaluates the
`tenant_access_token` property — one HTTP call to the token endpoint —
and then sends the operation call: two calls, not one. -/
theorem claim_C4_counterexample :
    (create_task test_client env_all_ok "t" Option.none Option.none false Option.none false
      Option.none Option.none [] [] "Asia/Shanghai").1.length ≠ 1 := by
  decide

/-- C4, amended: the token fetch itself issues exactly one HTTP call;
every authenticated operation that reaches the sender (its payload built
without raising) issues exactly two — the token fetch plus the operation
call — whenever the token fetch succeeds. -/
theorem claim_C4_amended_call_counts (c : FeishuRequestV2) (env : Env)
    (app_id app_secret task_id : String) (uids contacts : List String)
    (role mtype : String) (ctk : Option String) (tok : Option PyVal)
    (h : (tenant_access_token c env).2 = .ok tok) :
    (get_tenant_access_token env app_id app_secret).1.length = 1 ∧
    (delete_task c env task_id).1.length = 2 ∧
    (add_members c env task_id uids role mtype ctk).1.length = 2 ∧
    (get_userID_from_email_phone c env contacts).1.length = 2 ∧
    (∀ su de st sa dd ea ca rfm am fm tz pl,
      create_task_payload su de st sa dd ea ca rfm am fm tz = .ok pl →
      (create_task c env su de st sa dd ea ca rfm am fm tz).1.length = 2) ∧
    (∀ tid2 s2 d2 st2 dd2 ca2 tz2 res,
      update_task_payload s2 d2 st2 dd2 ca2 tz2 = .ok res →
      (update_task c env tid2 s2 d2 st2 dd2 ca2 tz2).1.length = 2) := by
  refine ⟨rfl, ?_, ?_, ?_, ?_, ?_⟩
  · unfold delete_task
    rw [_send_request_token_ok c env _ _ _ _ tok h]
    rfl
  · unfold add_members
    rw [_send_request_token_ok c env _ _ _ _ tok h]
    rfl
  · unfold get_userID_from_email_phone
    rw [_send_request_token_ok c env _ _ _ _ tok h]
    rfl
  · intro su de st sa dd ea ca rfm am fm tz pl hpl
    unfold create_task
    rw [hpl]
    show (_send_request c env (API_BASE_URL ++ "/task/v2/tasks") "post" true
      (some (.dict (pyDictOf pl))) []).1.length = 2
    rw [_send_request_token_ok c env _ _ _ _ tok h]
    rfl
  · intro tid2 s2 d2 st2 dd2 ca2 tz2 res hres
    rcases res with ⟨task, fields⟩
    unfold update_task
    rw [hres]
    show (_send_request c env (API_BASE_URL ++ "/task/v2/tasks/" ++ tid2) "patch" true
      (some (.dict (.cons "task" (.dict (pyDictOf task))
        (.cons "update_fields" (pyStrList fields) .nil))))
      [("user_id_type", "open_id")]).1.length = 2
    rw [_send_request_token_ok c env _ _ _ _ tok h]
    rfl

/-- Witness for the amended C4, on the all-success network. -/
theorem claim_C4_amended_witness :
    (get_tenant_access_token env_all_ok "app" "secret").1.length = 1 ∧
    (delete_task test_client env_all_ok "tid").1.length = 2 :=
  ⟨(claim_C4_amended_call_counts test_client env_all_ok "app" "secret" "tid" [] []
      "follower" "user" Option.none (some (.str "tok123")) rfl).1,
    (claim_C4_amended_call_counts test_client env_all_ok "app" "secret" "tid" [] []
      "follower" "user" Option.none (some (.str "tok123")) rfl).2.1⟩

/-- C7: when the token endpoint answers with a code-0 envelope holding
token string `t`, every `_send_request` with `require_token=True` issues
the token request — which carries only the base headers, no
`Authorization` — followed by the main request whose headers end with
`Authorization: Bearer t`. -/
theorem claim_C7_authorization_header (c : FeishuRequestV2) (env : Env) (url method : String)
    (payload : Option PyVal) (params : List (String × String)) (tokBody : PyVal) (t : String)
    (htok : env (token_request c.app_id c.app_secret) = .ok tokBody)
    (hcode : responseCodeIsZero tokBody = true)
    (ht : pyGet tokBody "tenant_access_token" = some (.str t)) :
    (_send_request c env url method true payload params).1 =
      [token_request c.app_id c.app_secret,
        ⟨method, url, base_headers ++ [("Authorization", "Bearer " ++ t)], payload, params⟩] ∧
    (token_request c.app_id c.app_secret).headers = base_headers ∧
    List.lookup "Authorization" base_headers = Option.none := by
  have htok2 : (tenant_access_token c env).2 = .ok (some (.str t)) := by
    unfold tenant_access_token get_tenant_access_token
    simp only [send_request_core]
    rw [show (⟨"post", API_BASE_URL ++ "/auth/v3/tenant_access_token/internal", base_headers,
      some (.dict (.cons "app_id" (.str c.app_id)
        (.cons "app_secret" (.str c.app_secret) .nil))),
      []⟩ : HttpRequest) = token_request c.app_id c.app_secret from rfl, htok]
    simp [hcode, ht]
  rw [_send_request_token_ok c env url method payload params (some (.str t)) htok2]
  exact ⟨rfl, rfl, by decide⟩

/-- Witness for C7, on the all-success network. -/
theorem claim_C7_witness :
    (_send_request test_client env_all_ok "https://u" "post" true Option.none []).1 =
      [token_request "app" "secret",
        ⟨"post", "https://u", base_headers ++ [("Authorization", "Bearer " ++ "tok123")],
          Option.none, []⟩] ∧
    (token_request "app" "secret").headers = base_headers ∧
    List.lookup "Authorization" base_headers = Option.none :=
  claim_C7_authorization_header test_client env_all_ok "https://u" "post" Option.none []
    token_ok_body "tok123" rfl rfl rfl

/-- The `role` entry of a `create_task` member object. -/
theorem member_entry_role (m r : String) : pyGet (member_entry m r) "role" = some (.str r) := rfl

/-- C6: every member entry `create_task` attaches carries role
`"assignee"` (for ids from `assignees_members`) or `"follower"` (for ids
from `followers_members`) — the built members list is exactly those two
blocks — and the add-members tool rejects any `member_role` outside the
two roles with no HTTP call issued. -/
theorem claim_C6_member_roles (a f : List String) (c : FeishuRequestV2) (env : Env)
    (tg : Option String) (mids : PyVal) (role mtype : String) (ctk : Option String)
    (hrole : role ≠ "assignee" ∧ role ≠ "follower") :
    create_task_members a f =
      a.map (fun m => member_entry m "assignee") ++
        f.map (fun m => member_entry m "follower") ∧
    (∀ j ∈ create_task_members a f,
      pyGet j "role" = some (.str "assignee") ∨ pyGet j "role" = some (.str "follower")) ∧
    (add_members_tool_invoke c env tg mids role mtype ctk).1 = [] ∧
    (∃ e, (add_members_tool_invoke c env tg mids role mtype ctk).2 = .error e) := by
  have hmem : create_task_members a f =
      a.map (fun m => member_entry m "assignee") ++
        f.map (fun m => member_entry m "follower") := by
    cases a <;> cases f <;> simp [create_task_members]
  have htool : ∃ e, add_members_tool_invoke c env tg mids role mtype ctk = ([], .error e) := by
    unfold add_members_tool_invoke
    rcases tg with _ | g
    · exact ⟨"task_guid is required", rfl⟩
    · cases hg : g.isEmpty
      · refine ⟨"member_role must be assignee or follower", ?_⟩
        simp [hg, hrole.1, hrole.2]
      · exact ⟨"task_guid is required", by simp [hg]⟩
  obtain ⟨e, he⟩ := htool
  refine ⟨hmem, ?_, by rw [he], ⟨e, by rw [he]⟩⟩
  intro j hj
  rw [hmem] at hj
  rcases List.mem_append.mp hj with hja | hjf
  · obtain ⟨m, _, rfl⟩ := List.mem_map.mp hja
    exact Or.inl (member_entry_role m "assignee")
  · obtain ⟨m, _, rfl⟩ := List.mem_map.mp hjf
    exact Or.inr (member_entry_role m "follower")

/-- Witness for C6, with the out-of-range role `"viewer"`. -/
theorem claim_C6_witness :
    create_task_members ["u1"] ["u2"] =
      (["u1"].map (fun m => member_entry m "assignee") ++
        ["u2"].map (fun m => member_entry m "follower")) ∧
    (add_members_tool_invoke test_client env_all_ok (some "tid") (.str "u1")
      "viewer" "user" Option.none).1 = [] ∧
    (∃ e, (add_members_tool_invoke test_client env_all_ok (some "tid") (.str "u1")
      "viewer" "user" Option.none).2 = .error e) :=
  ⟨(claim_C6_member_roles ["u1"] ["u2"] test_client env_all_ok (some "tid") (.str "u1")
      "viewer" "user" Option.none ⟨by decide, by decide⟩).1,
    (claim_C6_member_roles ["u1"] ["u2"] test_client env_all_ok (some "tid") (.str "u1")
      "viewer" "user" Option.none ⟨by decide, by decide⟩).2.2.1,
    (claim_C6_member_roles ["u1"] ["u2"] test_client env_all_ok (some "tid") (.str "u1")
      "viewer" "user" Option.none ⟨by decide, by decide⟩).2.2.2⟩

/-- C8: the payload of `get_userID_from_email_phone` partitions the input:
`emails` is exactly the items containing `@`, `mobiles` exactly the
others, each in input order (a sublist of the input), the two together a
permutation of the input, and `include_resigned` is always `False`. -/
theorem claim_C8_contact_partition (l : List String) :
    split_emails_mobiles l = (l.filter hasAtSign, l.filter (fun s => !hasAtSign s)) ∧
    get_userID_payload l =
      .dict (.cons "emails" (pyStrList (l.filter hasAtSign))
        (.cons "mobiles" (pyStrList (l.filter (fun s => !hasAtSign s)))
          (.cons "include_resigned" (.bool false) .nil))) ∧
    List.Sublist (l.filter hasAtSign) l ∧
    List.Sublist (l.filter (fun s => !hasAtSign s)) l ∧
    (l.filter hasAtSign ++ l.filter (fun s => !hasAtSign s)).Perm l := by
  have hsplit : split_emails_mobiles l =
      (l.filter hasAtSign, l.filter (fun s => !hasAtSign s)) := by
    induction l with
    | nil => rfl
    | cons x r ih =>
      unfold split_emails_mobiles
      rw [ih]
      by_cases hx : hasAtSign x <;> simp [hx, List.filter_cons]
  refine ⟨hsplit, ?_, List.filter_sublist l, List.filter_sublist l,
    List.filter_append_perm hasAtSign l⟩
  unfold get_userID_payload
  rw [hsplit]

/-- A plain `update_task` block appends its key to `update_fields` exactly
when the parameter is present. -/
theorem upd_plain_snd (key : String) (v : Option String)
    (acc : List (String × PyVal) × List String) :
    (upd_plain key v acc).2 = acc.2 ++ (if v.isSome then [key] else []) := by
  cases v <;> simp [upd_plain]

/-- A plain `update_task` block keeps the task keys aligned with
`update_fields`. -/
theorem upd_plain_map_fst (key : String) (v : Option String)
    (acc : List (String × PyVal) × List String) (h : acc.1.map Prod.fst = acc.2) :
    (upd_plain key v acc).1.map Prod.fst = (upd_plain key v acc).2 := by
  cases v <;> simp [upd_plain, h]

/-- A timestamp `update_task` block that does not raise appends its key to
`update_fields` exactly when the parameter is present, and keeps the task
keys aligned with `update_fields`. -/
theorem upd_time_ok (key : String) (mk : Option String → PyVal) (v : Option String)
    (tz : String) (acc acc2 : List (String × PyVal) × List String)
    (h : upd_time key mk v tz acc = .ok acc2) :
    acc2.2 = acc.2 ++ (if v.isSome then [key] else []) ∧
    (acc.1.map Prod.fst = acc.2 → acc2.1.map Prod.fst = acc2.2) := by
  cases v with
  | none =>
    have hacc : acc = acc2 := by simpa [upd_time, pure, Except.pure] using h
    subst hacc
    simp
  | some x =>
    simp only [upd_time] at h
    cases hts : to_timestamp_str x tz with
    | error e =>
      rw [hts] at h
      simp [Bind.bind, Except.bind] at h
    | ok ts =>
      rw [hts] at h
      simp only [Bind.bind, Except.bind, pure, Except.pure, Except.ok.injEq] at h
      subst h
      refine ⟨by simp, fun hm => ?_⟩
      simp [hm]

/-- C10: whenever `update_task` builds a payload without raising,
`update_fields` lists, in the fixed order summary, description, start,
due, completed_at, exactly the names of the parameters that were not
`None`, and the keys of the `task` object are exactly `update_fields`. -/
theorem claim_C10_update_fields (s d st dd ca : Option String) (tz : String)
    (task : List (String × PyVal)) (fields : List String)
    (h : update_task_payload s d st dd ca tz = .ok (task, fields)) :
    fields =
      (if s.isSome then ["summary"] else []) ++
      (if d.isSome then ["description"] else []) ++
      (if st.isSome then ["start"] else []) ++
      (if dd.isSome then ["due"] else []) ++
      (if ca.isSome then ["completed_at"] else []) ∧
    task.map Prod.fst = fields := by
  simp only [update_task_payload] at h
  rcases h3 : upd_time "start" upd_time_obj st tz
      (upd_plain "description" d (upd_plain "summary" s ([], []))) with e3 | a3
  · rw [h3] at h; simp [Bind.bind, Except.bind] at h
  · rw [h3] at h
    simp only [Bind.bind, Except.bind] at h
    rcases h4 : upd_time "due" upd_time_obj dd tz a3 with e4 | a4
    · rw [h4] at h; simp [Bind.bind, Except.bind] at h
    · rw [h4] at h
      simp only [Bind.bind, Except.bind] at h
      rcases h5 : upd_time "completed_at" jOfOptStr ca tz a4 with e5 | a5
      · rw [h5] at h; simp [Bind.bind, Except.bind] at h
      · rw [h5] at h
        have ha5 : a5 = (task, fields) := by
          simpa [Bind.bind, Except.bind, pure, Except.pure] using h
        subst ha5
        obtain ⟨h3f, h3m⟩ := upd_time_ok _ _ _ _ _ _ h3
        obtain ⟨h4f, h4m⟩ := upd_time_ok _ _ _ _ _ _ h4
        obtain ⟨h5f, h5m⟩ := upd_time_ok _ _ _ _ _ _ h5
        have hbase : ((([], []) : List (String × PyVal) × List String)).1.map Prod.fst =
            (([], []) : List (String × PyVal) × List String).2 := rfl
        have h1m := upd_plain_map_fst "summary" s ([], []) hbase
        have h2m := upd_plain_map_fst "description" d _ h1m
        have h2f : (upd_plain "description" d (upd_plain "summary" s ([], []))).2 =
            (if s.isSome then ["summary"] else []) ++
              (if d.isSome then ["description"] else []) := by
          rw [upd_plain_snd, upd_plain_snd]
          simp
        have h5f2 : fields = a4.2 ++ (if ca.isSome then ["completed_at"] else []) := h5f
        have h5m2 : List.map Prod.fst a4.1 = a4.2 → List.map Prod.fst task = fields := h5m
        constructor
        · rw [h5f2, h4f, h3f, h2f]
        · exact h5m2 (h4m (h3m h2m))

/-- Witness for C10: only `summary` set. -/
theorem claim_C10_witness :
    (["summary"] : List String) =
      (if (some "x" : Option String).isSome then ["summary"] else []) ++
      (if (Option.none : Option String).isSome then ["description"] else []) ++
      (if (Option.none : Option String).isSome then ["start"] else []) ++
      (if (Option.none : Option String).isSome then ["due"] else []) ++
      (if (Option.none : Option String).isSome then ["completed_at"] else []) ∧
    ([("summary", PyVal.str "x")].map Prod.fst : List String) = ["summary"] :=
  claim_C10_update_fields (some "x") Option.none Option.none Option.none Option.none
    "Asia/Shanghai" [("summary", PyVal.str "x")] ["summary"] rfl
